import Mathlib

/-!
Shallow embedding of the badminton signup & waitlist app (`app.py`).

Modelling conventions, each matching the Python source:
* The two worksheets are modelled as Lean lists: `sessions : List Session`
  and `signups : List Signup`; a row update by cell index is a positional
  update of the list.
* Timestamps (`created_utc`, `cutoff_utc`, "now") are modelled as naturals.
  The source stores ISO-8601 UTC strings and compares them either as strings
  (sort keys) or as parsed datetimes; both orders agree with each other and
  are order-isomorphic to the naturals used here.
* Python's `list.sort(key=...)` is a stable sort by a total preorder; it is
  modelled by `List.insertionSort` with the corresponding relation, which is
  the same stable sort, hence extensionally equal.
* `cutoff_utc` is `Option Nat`: an empty cell is falsy in Python and yields
  `None` after the `if s.get("cutoff_utc")` check.
* Fresh UUIDs and the current clock are passed in as explicit parameters.
-/

namespace Badminton

/-- A row of the `signups` worksheet: id, session_id, name, role, added_by,
created_utc, status. -/
structure Signup where
  id : String
  session_id : String
  name : String
  role : String
  added_by : String
  created_utc : Nat
  status : String
deriving DecidableEq, Repr

/-- A row of the `sessions` worksheet: id, session_date, capacity, cutoff_utc,
title, notes.  `capacity` is already normalized to an integer as in
`read_sessions`. -/
structure Session where
  id : String
  session_date : String
  capacity : Nat
  cutoff_utc : Option Nat
  title : String
  notes : String
deriving DecidableEq, Repr

/-- The whole spreadsheet: the `sessions` and `signups` worksheets. -/
structure AppState where
  sessions : List Session
  signups : List Signup
deriving DecidableEq, Repr

/-- Sort key used by `read_sessions`: newest first by date
(`rows.sort(key=λ r. r["session_date"], reverse=True)`, a stable descending
sort). -/
def dateRel (a b : Session) : Prop :=
  b.session_date ≤ a.session_date

instance : DecidableRel dateRel := fun a b =>
  inferInstanceAs (Decidable (b.session_date ≤ a.session_date))

/-- `read_sessions`: all session rows, sorted newest first by date. -/
def read_sessions (sessions : List Session) : List Session :=
  List.insertionSort dateRel sessions

/-- `read_signups(session_id)`: rows of this session whose status is not
`"removed"`. -/
def read_signups (rows : List Signup) (session_id : String) : List Signup :=
  rows.filter (fun r => decide (r.session_id = session_id ∧ r.status ≠ "removed"))

/-- `get_session_by_id`: first session with the given id in `read_sessions`
order. -/
def get_session_by_id (sessions : List Session) (session_id : String) : Option Session :=
  (read_sessions sessions).find? (fun s => s.id == session_id)

/-- `update_signup_status`: scan the worksheet top to bottom and set the
status cell of the first row whose id matches; if none matches, return with
no change. -/
def update_signup_status (rows : List Signup) (signup_id : String) (new_status : String) :
    List Signup :=
  match rows with
  | [] => []
  | r :: rest =>
    if r.id = signup_id then { r with status := new_status } :: rest
    else r :: update_signup_status rest signup_id new_status

/-- Sort key of `apply_priority_logic`:
`(0 if r["role"]=="core" else 1)`. -/
def roleKeyCore (r : Signup) : Nat :=
  if r.role = "core" then 0 else 1

/-- Priority order of `apply_priority_logic`: core first, then outsiders,
each tier by `created_utc` ascending (Python tuple comparison of the sort
keys). -/
def prioRel (a b : Signup) : Prop :=
  roleKeyCore a < roleKeyCore b ∨
    (roleKeyCore a = roleKeyCore b ∧ a.created_utc ≤ b.created_utc)

instance : DecidableRel prioRel := fun a b =>
  inferInstanceAs (Decidable (roleKeyCore a < roleKeyCore b ∨
    (roleKeyCore a = roleKeyCore b ∧ a.created_utc ≤ b.created_utc)))

/-- Sort key of `auto_fill_from_waitlist`:
`(0 if r["role"]=="outsider" else 1)`. -/
def roleKeyOutsider (r : Signup) : Nat :=
  if r.role = "outsider" then 0 else 1

/-- Promotion order of `auto_fill_from_waitlist`: outsiders first, then any
remaining cores, each tier by `created_utc` ascending. -/
def promoRel (a b : Signup) : Prop :=
  roleKeyOutsider a < roleKeyOutsider b ∨
    (roleKeyOutsider a = roleKeyOutsider b ∧ a.created_utc ≤ b.created_utc)

instance : DecidableRel promoRel := fun a b =>
  inferInstanceAs (Decidable (roleKeyOutsider a < roleKeyOutsider b ∨
    (roleKeyOutsider a = roleKeyOutsider b ∧ a.created_utc ≤ b.created_utc)))

instance : IsTotal Signup prioRel :=
  ⟨fun a b => by unfold prioRel; omega⟩

instance : IsTrans Signup prioRel :=
  ⟨fun a b c hab hbc => by unfold prioRel at hab hbc ⊢; omega⟩

instance : IsTotal Signup promoRel :=
  ⟨fun a b => by unfold promoRel; omega⟩

instance : IsTrans Signup promoRel :=
  ⟨fun a b c hab hbc => by unfold promoRel at hab hbc ⊢; omega⟩

/-- The active signups of a session sorted in recompute priority order. -/
def sorted_active (rows : List Signup) (session_id : String) : List Signup :=
  List.insertionSort prioRel (read_signups rows session_id)

/-- The `to_confirm` set of `apply_priority_logic`: ids of the first
`capacity` entries of the sorted active list. -/
def confirm_ids (rows : List Signup) (session_id : String) (capacity : Nat) : List String :=
  ((sorted_active rows session_id).take capacity).map (fun r => r.id)

/-- The per-row write-back of `apply_priority_logic`: active rows of the
session get `"confirmed"` when their id is in `to_confirm`, else
`"waitlist"`; all other rows are untouched. -/
def set_status_row (session_id : String) (to_confirm : List String) (row : Signup) : Signup :=
  if row.session_id = session_id ∧ row.status ≠ "removed" then
    { row with status := if row.id ∈ to_confirm then "confirmed" else "waitlist" }
  else row

/-- `apply_priority_logic(session_id)`: recompute the confirmed/waitlist
partition of a session and write the statuses back.  No-op when the session
is not found. -/
def apply_priority_logic (state : AppState) (session_id : String) : AppState :=
  match get_session_by_id state.sessions session_id with
  | none => state
  | some s =>
    { state with
      signups := state.signups.map
        (set_status_row session_id (confirm_ids state.signups session_id s.capacity)) }

/-- The promotion loop of `auto_fill_from_waitlist`: call
`update_signup_status(r["id"], "confirmed")` for each candidate in order. -/
def promote_all (rows : List Signup) (cands : List Signup) : List Signup :=
  cands.foldl (fun acc r => update_signup_status acc r.id "confirmed") rows

/-- Pointwise characterization of the promotion loop (derived below in
`promote_all_eq_map`): a row whose id was promoted is set to `"confirmed"`,
every other row is untouched. -/
def promoted_row (ids : List String) (r : Signup) : Signup :=
  if r.id ∈ ids then { r with status := "confirmed" } else r

/-- The gating test of `auto_fill_from_waitlist`:
`not force and cutoff and utcnow() < cutoff`. -/
def gate_blocked (s : Session) (force : Bool) (now : Nat) : Bool :=
  !force && (match s.cutoff_utc with
             | some c => decide (now < c)
             | none => false)

/-- The sorted candidate list of `auto_fill_from_waitlist`: active signups
not already confirmed, outsiders first, each tier by `created_utc`. -/
def promo_candidates (rows : List Signup) (session_id : String) : List Signup :=
  List.insertionSort promoRel
    ((read_signups rows session_id).filter (fun r => decide (r.status ≠ "confirmed")))

/-- Number of confirmed active signups of a session
(`len([r for r in read_signups(sid) if r["status"] == "confirmed"])`). -/
def count_confirmed (rows : List Signup) (session_id : String) : Nat :=
  ((read_signups rows session_id).filter (fun r => decide (r.status = "confirmed"))).length

/-- Number of active signups of a session not in confirmed status. -/
def waitlist_count (rows : List Signup) (session_id : String) : Nat :=
  ((read_signups rows session_id).filter (fun r => decide (r.status ≠ "confirmed"))).length

/-- `auto_fill_from_waitlist(session_id, force)`: promote waitlisted signups
into free capacity after the cutoff (or when forced).  Returns
`(promoted, max(0, remaining - promoted))` and the new state. -/
def auto_fill_from_waitlist (state : AppState) (session_id : String) (force : Bool) (now : Nat) :
    (Nat × Nat) × AppState :=
  match get_session_by_id state.sessions session_id with
  | none => ((0, 0), state)
  | some s =>
    if gate_blocked s force now then ((0, 0), state)
    else
      let remaining := s.capacity - count_confirmed state.signups session_id
      if remaining = 0 then ((0, 0), state)
      else
        let toPromote := (promo_candidates state.signups session_id).take remaining
        ((toPromote.length, remaining - toPromote.length),
          { state with signups := promote_all state.signups toPromote })

/-- Python `str.strip()`: remove leading and trailing whitespace.  Defined
over the character list so that it is computable by kernel reduction. -/
def pyStrip (s : String) : String :=
  ⟨((s.data.dropWhile Char.isWhitespace).reverse.dropWhile Char.isWhitespace).reverse⟩

/-- Python `str.lower()`: lowercase every character. -/
def pyLower (s : String) : String :=
  ⟨s.data.map Char.toLower⟩

/-- `append_signup(session_id, name, role, added_by)`: validate, reject
duplicates, append a new waitlisted row, then recompute priorities.  The
fresh UUID and clock reading are the `new_id` and `now` parameters. -/
def append_signup (state : AppState) (session_id name role : String)
    (added_by : Option String) (new_id : String) (now : Nat) : (Bool × String) × AppState :=
  if pyStrip name = "" then ((false, "Name is required."), state)
  else if ¬(role = "core" ∨ role = "outsider") then ((false, "Invalid role."), state)
  else if (read_signups state.signups session_id).any
      (fun s => decide (pyLower (pyStrip s.name) = pyLower (pyStrip name))) then
    ((false, name ++ " is already listed for this session."), state)
  else
    let row : Signup :=
      { id := new_id, session_id := session_id, name := pyStrip name, role := role,
        added_by := pyStrip (added_by.getD ""), created_utc := now, status := "waitlist" }
    ((true, "Added " ++ name ++ " as " ++ role ++ "."),
      apply_priority_logic { state with signups := state.signups ++ [row] } session_id)

/-! ### Concrete fixture used by the witnesses below -/

/-- Example session: capacity 2, cutoff at time 50. -/
def exS : Session :=
  ⟨"s1", "2026-01-10", 2, some 50, "Weekly Badminton", ""⟩

/-- Example signups worksheet: one confirmed core, three waitlisted
outsiders, a signup of another session, and a removed signup. -/
def exRows : List Signup :=
  [⟨"a", "s1", "Alice", "core", "", 1, "confirmed"⟩,
   ⟨"b", "s1", "Bob", "outsider", "Alice", 2, "waitlist"⟩,
   ⟨"c", "s1", "Cara", "outsider", "Alice", 3, "waitlist"⟩,
   ⟨"d", "s1", "Dan", "outsider", "Alice", 4, "waitlist"⟩,
   ⟨"e", "s2", "Eve", "core", "", 5, "waitlist"⟩,
   ⟨"f", "s1", "Fred", "outsider", "Alice", 0, "removed"⟩]

/-- Example whole-spreadsheet state. -/
def exState : AppState :=
  ⟨[exS], exRows⟩

/-! ### Basic facts about the row updaters -/

theorem set_status_row_of_active {session_id : String} {to_confirm : List String} {row : Signup}
    (h : row.session_id = session_id ∧ row.status ≠ "removed") :
    set_status_row session_id to_confirm row =
      { row with status := if row.id ∈ to_confirm then "confirmed" else "waitlist" } :=
  if_pos h

theorem set_status_row_of_not_active {session_id : String} {to_confirm : List String} {row : Signup}
    (h : ¬(row.session_id = session_id ∧ row.status ≠ "removed")) :
    set_status_row session_id to_confirm row = row :=
  if_neg h

theorem set_status_row_id (session_id : String) (to_confirm : List String) (row : Signup) :
    (set_status_row session_id to_confirm row).id = row.id := by
  unfold set_status_row; split <;> rfl

theorem set_status_row_session_id (session_id : String) (to_confirm : List String) (row : Signup) :
    (set_status_row session_id to_confirm row).session_id = row.session_id := by
  unfold set_status_row; split <;> rfl

theorem set_status_row_role (session_id : String) (to_confirm : List String) (row : Signup) :
    (set_status_row session_id to_confirm row).role = row.role := by
  unfold set_status_row; split <;> rfl

theorem set_status_row_created (session_id : String) (to_confirm : List String) (row : Signup) :
    (set_status_row session_id to_confirm row).created_utc = row.created_utc := by
  unfold set_status_row; split <;> rfl

theorem set_status_row_active_iff (session_id : String) (to_confirm : List String) (row : Signup) :
    ((set_status_row session_id to_confirm row).session_id = session_id ∧
        (set_status_row session_id to_confirm row).status ≠ "removed") ↔
      (row.session_id = session_id ∧ row.status ≠ "removed") := by
  by_cases h : row.session_id = session_id ∧ row.status ≠ "removed"
  · rw [set_status_row_of_active h]
    refine iff_of_true ⟨h.1, ?_⟩ h
    by_cases hm : row.id ∈ to_confirm <;> simp [hm]
  · rw [set_status_row_of_not_active h]

theorem prioRel_set_status_row (session_id : String) (to_confirm : List String) (a b : Signup) :
    prioRel (set_status_row session_id to_confirm a) (set_status_row session_id to_confirm b) ↔
      prioRel a b := by
  unfold prioRel roleKeyCore
  rw [set_status_row_role, set_status_row_role, set_status_row_created, set_status_row_created]

/-! ### A stable sort commutes with a key-preserving row map -/

theorem orderedInsert_map {r : Signup → Signup → Prop} [DecidableRel r] (f : Signup → Signup)
    (hf : ∀ a b, r (f a) (f b) ↔ r a b) (a : Signup) (l : List Signup) :
    List.orderedInsert r (f a) (l.map f) = (List.orderedInsert r a l).map f := by
  induction l with
  | nil => rfl
  | cons b t ih =>
    simp only [List.map_cons, List.orderedInsert]
    by_cases h : r a b
    · rw [if_pos ((hf a b).mpr h), if_pos h, List.map_cons, List.map_cons]
    · rw [if_neg (fun hc => h ((hf a b).mp hc)), if_neg h, List.map_cons, ih]

theorem insertionSort_map {r : Signup → Signup → Prop} [DecidableRel r] (f : Signup → Signup)
    (hf : ∀ a b, r (f a) (f b) ↔ r a b) (l : List Signup) :
    List.insertionSort r (l.map f) = (List.insertionSort r l).map f := by
  induction l with
  | nil => rfl
  | cons a t ih =>
    simp only [List.map_cons, List.insertionSort]
    rw [ih, orderedInsert_map f hf]

theorem read_signups_map (f : Signup → Signup) (session_id : String) (rows : List Signup)
    (hp : ∀ r ∈ rows, ((f r).session_id = session_id ∧ (f r).status ≠ "removed") ↔
      (r.session_id = session_id ∧ r.status ≠ "removed")) :
    read_signups (rows.map f) session_id = (read_signups rows session_id).map f := by
  unfold read_signups
  rw [List.filter_map]
  congr 1
  refine List.filter_congr fun a ha => ?_
  exact decide_eq_decide.mpr (hp a ha)

theorem confirm_ids_map_set_status (rows : List Signup) (session_id : String) (capacity : Nat)
    (to_confirm : List String) :
    confirm_ids (rows.map (set_status_row session_id to_confirm)) session_id capacity =
      confirm_ids rows session_id capacity := by
  unfold confirm_ids sorted_active
  rw [read_signups_map _ _ _ (fun r _ => set_status_row_active_iff session_id to_confirm r),
    insertionSort_map _ (prioRel_set_status_row session_id to_confirm), ← List.map_take,
    List.map_map]
  exact List.map_congr_left fun a _ => set_status_row_id session_id to_confirm a

/-! ### Facts about `update_signup_status` and the promotion loop -/

theorem update_signup_status_map_id (rows : List Signup) (signup_id new_status : String) :
    (update_signup_status rows signup_id new_status).map (fun r => r.id) =
      rows.map (fun r => r.id) := by
  induction rows with
  | nil => rfl
  | cons r t ih =>
    unfold update_signup_status
    by_cases h : r.id = signup_id
    · simp [h]
    · simp only [if_neg h, List.map_cons, ih]

theorem update_signup_status_not_found {rows : List Signup} {signup_id : String}
    (new_status : String) (h : ∀ r ∈ rows, r.id ≠ signup_id) :
    update_signup_status rows signup_id new_status = rows := by
  induction rows with
  | nil => rfl
  | cons r t ih =>
    unfold update_signup_status
    rw [if_neg (h r (List.mem_cons_self r t)),
      ih fun a ha => h a (List.mem_cons_of_mem r ha)]

theorem update_signup_status_nodup {rows : List Signup} (signup_id new_status : String)
    (hnd : (rows.map (fun r => r.id)).Nodup) :
    update_signup_status rows signup_id new_status =
      rows.map (fun r => if r.id = signup_id then { r with status := new_status } else r) := by
  induction rows with
  | nil => rfl
  | cons r t ih =>
    rw [List.map_cons, List.nodup_cons] at hnd
    unfold update_signup_status
    by_cases h : r.id = signup_id
    · rw [if_pos h, List.map_cons, if_pos h]
      congr 1
      refine ((List.map_congr_left fun a ha => if_neg ?_).trans (List.map_id' t)).symm
      exact fun hc => hnd.1 (h ▸ hc ▸ List.mem_map_of_mem (fun r => r.id) ha)
    · rw [if_neg h, List.map_cons, if_neg h, ih hnd.2]

theorem promote_all_eq_map (cands : List Signup) {rows : List Signup}
    (hnd : (rows.map (fun r => r.id)).Nodup) :
    promote_all rows cands = rows.map (promoted_row (cands.map (fun c => c.id))) := by
  induction cands generalizing rows with
  | nil =>
    exact ((List.map_congr_left fun a _ => by simp [promoted_row]).trans
      (List.map_id' rows)).symm
  | cons c cs ih =>
    have hnd' : ((update_signup_status rows c.id "confirmed").map (fun r => r.id)).Nodup := by
      rw [update_signup_status_map_id]; exact hnd
    show promote_all (update_signup_status rows c.id "confirmed") cs = _
    rw [ih hnd', update_signup_status_nodup c.id "confirmed" hnd, List.map_map]
    refine List.map_congr_left fun r _ => ?_
    unfold promoted_row
    by_cases h : r.id = c.id
    · by_cases h2 : r.id ∈ cs.map (fun c => c.id) <;>
        simp [Function.comp, h, h2, List.mem_cons]
    · by_cases h2 : r.id ∈ cs.map (fun c => c.id) <;>
        simp [Function.comp, h, h2, List.mem_cons]

theorem eq_of_mem_of_id_eq {rows : List Signup} (hnd : (rows.map (fun r => r.id)).Nodup)
    {a b : Signup} (ha : a ∈ rows) (hb : b ∈ rows) (h : a.id = b.id) : a = b :=
  List.inj_on_of_nodup_map hnd ha hb h

theorem mem_read_signups_iff {rows : List Signup} {session_id : String} {r : Signup} :
    r ∈ read_signups rows session_id ↔
      r ∈ rows ∧ r.session_id = session_id ∧ r.status ≠ "removed" := by
  unfold read_signups
  rw [List.mem_filter, decide_eq_true_iff]

theorem mem_promo_candidates {rows : List Signup} {session_id : String} {x : Signup}
    (hx : x ∈ promo_candidates rows session_id) :
    x ∈ rows ∧ x.session_id = session_id ∧ x.status ≠ "removed" ∧ x.status ≠ "confirmed" := by
  unfold promo_candidates at hx
  rw [List.mem_insertionSort, List.mem_filter, decide_eq_true_iff] at hx
  have h2 := mem_read_signups_iff.mp hx.1
  exact ⟨h2.1, h2.2.1, h2.2.2, hx.2⟩

theorem mem_promo_candidates_take {rows : List Signup} {session_id : String} {n : Nat} {x : Signup}
    (hx : x ∈ (promo_candidates rows session_id).take n) :
    x ∈ rows ∧ x.session_id = session_id ∧ x.status ≠ "removed" ∧ x.status ≠ "confirmed" :=
  mem_promo_candidates (List.mem_of_mem_take hx)

/-- Resolving a promoted id back to its unique row: under id-uniqueness the
row carrying a promoted id is an active, not-yet-confirmed row of the
session. -/
theorem promoted_mem_resolve {rows : List Signup} {session_id : String} {n : Nat}
    (hnd : (rows.map (fun r => r.id)).Nodup) {r : Signup} (hr : r ∈ rows)
    (hid : r.id ∈ ((promo_candidates rows session_id).take n).map (fun c => c.id)) :
    r.session_id = session_id ∧ r.status ≠ "removed" ∧ r.status ≠ "confirmed" := by
  obtain ⟨x, hx, hxid⟩ := List.mem_map.mp hid
  have hxp := mem_promo_candidates_take hx
  have hrx : r = x := eq_of_mem_of_id_eq hnd hr hxp.1 hxid.symm
  rw [hrx]
  exact ⟨hxp.2.1, hxp.2.2.1, hxp.2.2.2⟩

/-! ### Counting helpers -/

theorem length_filter_or_le (p q : Signup → Bool) (l : List Signup) :
    (l.filter (fun r => p r || q r)).length ≤ (l.filter p).length + (l.filter q).length := by
  induction l with
  | nil => simp
  | cons a t ih =>
    by_cases hp : p a <;> by_cases hq : q a <;>
      simp [List.filter_cons, hp, hq] <;> omega

theorem length_filter_mem_le (l : List Signup) (ids : List String)
    (hnd : (l.map (fun r => r.id)).Nodup) :
    (l.filter (fun r => decide (r.id ∈ ids))).length ≤ ids.length := by
  have hsub : List.Sublist ((l.filter (fun r => decide (r.id ∈ ids))).map (fun r => r.id))
      (l.map (fun r => r.id)) :=
    (List.filter_sublist l).map _
  have h1 : ((l.filter (fun r => decide (r.id ∈ ids))).map (fun r => r.id)).Nodup :=
    List.Nodup.sublist hsub hnd
  have h2 : (l.filter (fun r => decide (r.id ∈ ids))).map (fun r => r.id) ⊆ ids := by
    intro x hx
    obtain ⟨r, hr, rfl⟩ := List.mem_map.mp hx
    exact decide_eq_true_iff.mp (List.mem_filter.mp hr).2
  calc (l.filter (fun r => decide (r.id ∈ ids))).length
      = ((l.filter (fun r => decide (r.id ∈ ids))).map (fun r => r.id)).length :=
        (List.length_map _ _).symm
    _ ≤ ids.length := (h1.subperm h2).length_le

/-! ### Length and nodup bookkeeping -/

theorem confirm_ids_length_le (rows : List Signup) (session_id : String) (capacity : Nat) :
    (confirm_ids rows session_id capacity).length ≤ capacity := by
  unfold confirm_ids
  rw [List.length_map, List.length_take]
  exact min_le_left _ _

theorem promo_candidates_length (rows : List Signup) (session_id : String) :
    (promo_candidates rows session_id).length = waitlist_count rows session_id := by
  unfold promo_candidates waitlist_count
  exact List.length_insertionSort _ _

theorem read_signups_nodup_ids {rows : List Signup} (session_id : String)
    (hnd : (rows.map (fun r => r.id)).Nodup) :
    ((read_signups rows session_id).map (fun r => r.id)).Nodup :=
  List.Nodup.sublist ((List.filter_sublist rows).map _) hnd

theorem set_status_row_idem (session_id : String) (to_confirm : List String) (a : Signup) :
    set_status_row session_id to_confirm (set_status_row session_id to_confirm a) =
      set_status_row session_id to_confirm a := by
  by_cases h : a.session_id = session_id ∧ a.status ≠ "removed"
  · have h2 := (set_status_row_active_iff session_id to_confirm a).mpr h
    rw [set_status_row_of_active h2, set_status_row_of_active h]
  · rw [set_status_row_of_not_active h, set_status_row_of_not_active h]

/-- Promoting the first `n` candidates raises the confirmed count of the
session by at most `n`. -/
theorem count_confirmed_promote_le (rows : List Signup) (session_id : String) (n : Nat)
    (hnd : (rows.map (fun r => r.id)).Nodup) :
    count_confirmed (promote_all rows ((promo_candidates rows session_id).take n)) session_id ≤
      count_confirmed rows session_id + n := by
  rw [promote_all_eq_map _ hnd]
  set Pids := ((promo_candidates rows session_id).take n).map (fun c => c.id) with hPids
  have hGiff : ∀ r ∈ rows,
      ((promoted_row Pids r).session_id = session_id ∧
          (promoted_row Pids r).status ≠ "removed") ↔
        (r.session_id = session_id ∧ r.status ≠ "removed") := by
    intro r hrr
    unfold promoted_row
    by_cases hid : r.id ∈ Pids
    · have hres := promoted_mem_resolve hnd hrr (hPids ▸ hid)
      rw [if_pos hid]
      exact iff_of_true ⟨hres.1, by simp⟩ ⟨hres.1, hres.2.1⟩
    · rw [if_neg hid]
  have hcong : ∀ a ∈ read_signups rows session_id,
      ((fun r => decide (r.status = "confirmed")) ∘ promoted_row Pids) a =
        (fun r => decide (r.id ∈ Pids) || decide (r.status = "confirmed")) a := by
    intro a _
    simp only [Function.comp]
    unfold promoted_row
    by_cases hm : a.id ∈ Pids
    · rw [if_pos hm]
      simp [hm]
    · rw [if_neg hm]
      simp [hm]
  show count_confirmed (rows.map (promoted_row Pids)) session_id ≤ _
  unfold count_confirmed
  rw [read_signups_map _ _ _ hGiff, List.filter_map, List.length_map,
    List.filter_congr hcong]
  have h1 := length_filter_or_le (fun r => decide (r.id ∈ Pids))
    (fun r => decide (r.status = "confirmed")) (read_signups rows session_id)
  have h2 := length_filter_mem_le (read_signups rows session_id) Pids
    (read_signups_nodup_ids session_id hnd)
  have h3 : Pids.length ≤ n := by
    rw [hPids, List.length_map, List.length_take]
    exact min_le_left _ _
  have h4 : (List.filter (fun r => decide (r.status = "confirmed"))
      (read_signups rows session_id)).length = count_confirmed rows session_id := rfl
  omega

/-! ### Unfolding the operations once the session is found -/

theorem apply_priority_logic_not_found {state : AppState} {session_id : String}
    (h : get_session_by_id state.sessions session_id = none) :
    apply_priority_logic state session_id = state := by
  unfold apply_priority_logic
  rw [h]

theorem auto_fill_not_found {state : AppState} {session_id : String} {force : Bool} {now : Nat}
    (h : get_session_by_id state.sessions session_id = none) :
    auto_fill_from_waitlist state session_id force now = ((0, 0), state) := by
  unfold auto_fill_from_waitlist
  rw [h]

theorem apply_priority_logic_found {state : AppState} {session_id : String} {s : Session}
    (h : get_session_by_id state.sessions session_id = some s) :
    apply_priority_logic state session_id =
      { state with
        signups := state.signups.map
          (set_status_row session_id (confirm_ids state.signups session_id s.capacity)) } := by
  unfold apply_priority_logic
  rw [h]

theorem auto_fill_blocked {state : AppState} {session_id : String} {s : Session}
    {force : Bool} {now : Nat} (h : get_session_by_id state.sessions session_id = some s)
    (hg : gate_blocked s force now = true) :
    auto_fill_from_waitlist state session_id force now = ((0, 0), state) := by
  unfold auto_fill_from_waitlist
  rw [h]
  simp only [hg, if_true]

theorem auto_fill_full {state : AppState} {session_id : String} {s : Session}
    {force : Bool} {now : Nat} (h : get_session_by_id state.sessions session_id = some s)
    (hg : gate_blocked s force now = false)
    (hr : s.capacity - count_confirmed state.signups session_id = 0) :
    auto_fill_from_waitlist state session_id force now = ((0, 0), state) := by
  unfold auto_fill_from_waitlist
  rw [h]
  simp only [hg, Bool.false_eq_true, if_false, hr]
  simp

theorem auto_fill_main {state : AppState} {session_id : String} {s : Session}
    {force : Bool} {now : Nat} (h : get_session_by_id state.sessions session_id = some s)
    (hg : gate_blocked s force now = false)
    (hr : s.capacity - count_confirmed state.signups session_id ≠ 0) :
    auto_fill_from_waitlist state session_id force now =
      ((((promo_candidates state.signups session_id).take
            (s.capacity - count_confirmed state.signups session_id)).length,
        (s.capacity - count_confirmed state.signups session_id) -
          ((promo_candidates state.signups session_id).take
            (s.capacity - count_confirmed state.signups session_id)).length),
        { state with
          signups := promote_all state.signups
            ((promo_candidates state.signups session_id).take
              (s.capacity - count_confirmed state.signups session_id)) }) := by
  unfold auto_fill_from_waitlist
  rw [h]
  simp only [hg, Bool.false_eq_true, if_false]
  rw [if_neg hr]

/-! ### Claims -/

/-- Claim C1 as stated is false on the code: with capacity 2, one confirmed
signup and three waitlisted ones, the forced promotion returns second
component `0` while two active signups are still on the waitlist. -/
theorem C1_counterexample :
    ¬ ((auto_fill_from_waitlist exState "s1" true 100).1.2 =
        waitlist_count (auto_fill_from_waitlist exState "s1" true 100).2.signups "s1") := by
  decide

/-- Claim C1, amended: past the gating checks, the second component of the
returned pair equals the remaining capacity minus the promoted count — the
number of still-unfilled slots, not the number still on the waitlist. -/
theorem C1_snd_is_unfilled_slots (state : AppState) (session_id : String) (s : Session)
    (force : Bool) (now : Nat)
    (h : get_session_by_id state.sessions session_id = some s)
    (hg : gate_blocked s force now = false) :
    (auto_fill_from_waitlist state session_id force now).1.2 =
      (s.capacity - count_confirmed state.signups session_id) -
        (auto_fill_from_waitlist state session_id force now).1.1 := by
  by_cases hr : s.capacity - count_confirmed state.signups session_id = 0
  · rw [auto_fill_full h hg hr, hr]
    rfl
  · rw [auto_fill_main h hg hr]

/-- Witness for the amended C1 at the concrete fixture. -/
theorem C1_witness :
    (auto_fill_from_waitlist exState "s1" true 100).1.2 =
      (exS.capacity - count_confirmed exState.signups "s1") -
        (auto_fill_from_waitlist exState "s1" true 100).1.1 :=
  C1_snd_is_unfilled_slots exState "s1" exS true 100 (by decide) (by decide)

/-- Claim C4: with a cutoff set, `promoteFromWaitlist` with `force = false`
strictly before the cutoff returns `(0,0)` and leaves the state unchanged;
once forced or at/after the cutoff, it promotes `min remainingCapacity
candidateCount` signups, up to the remaining capacity. -/
theorem C4_cutoff_gating (state : AppState) (session_id : String) (s : Session) (c : Nat)
    (force : Bool) (now : Nat)
    (h : get_session_by_id state.sessions session_id = some s)
    (hc : s.cutoff_utc = some c) :
    (force = false → now < c →
      auto_fill_from_waitlist state session_id force now = ((0, 0), state)) ∧
    (force = true ∨ c ≤ now →
      (auto_fill_from_waitlist state session_id force now).1.1 =
        min (s.capacity - count_confirmed state.signups session_id)
          (waitlist_count state.signups session_id)) := by
  constructor
  · intro hf hn
    have hgt : gate_blocked s force now = true := by
      unfold gate_blocked
      rw [hc, hf]
      simp [hn]
    exact auto_fill_blocked h hgt
  · intro hor
    have hgf : gate_blocked s force now = false := by
      unfold gate_blocked
      rw [hc]
      rcases hor with hf | hle
      · rw [hf]; rfl
      · simp [Nat.not_lt.mpr hle]
    by_cases hr : s.capacity - count_confirmed state.signups session_id = 0
    · rw [auto_fill_full h hgf hr, hr]
      simp
    · rw [auto_fill_main h hgf hr]
      show ((promo_candidates state.signups session_id).take _).length = _
      rw [List.length_take, promo_candidates_length]

/-- Witness for C4 at the concrete fixture: blocked before cutoff, promoting
when forced. -/
theorem C4_witness :
    auto_fill_from_waitlist exState "s1" false 10 = ((0, 0), exState) ∧
    (auto_fill_from_waitlist exState "s1" true 10).1.1 =
      min (exS.capacity - count_confirmed exState.signups "s1")
        (waitlist_count exState.signups "s1") :=
  ⟨(C4_cutoff_gating exState "s1" exS 50 false 10 (by decide) (by decide)).1 rfl (by decide),
   (C4_cutoff_gating exState "s1" exS 50 true 10 (by decide) (by decide)).2 (Or.inl rfl)⟩

/-- Claim C5: registering a name that, after trimming and lowercasing,
matches an existing active signup of the session fails with the duplicate
message and changes nothing. -/
theorem C5_duplicate_rejection (state : AppState) (session_id name role : String)
    (added_by : Option String) (new_id : String) (now : Nat)
    (hname : pyStrip name ≠ "")
    (hrole : role = "core" ∨ role = "outsider")
    (hdup : ∃ r ∈ read_signups state.signups session_id,
      pyLower (pyStrip r.name) = pyLower (pyStrip name)) :
    append_signup state session_id name role added_by new_id now =
      ((false, name ++ " is already listed for this session."), state) := by
  obtain ⟨r, hrmem, hreq⟩ := hdup
  have hany : (read_signups state.signups session_id).any
      (fun s => decide (pyLower (pyStrip s.name) = pyLower (pyStrip name))) = true :=
    List.any_eq_true.mpr ⟨r, hrmem, decide_eq_true hreq⟩
  unfold append_signup
  rw [if_neg hname, if_neg (not_not_intro hrole), if_pos hany]

/-- Witness for C5 at the concrete fixture: "alice" collides with "Alice". -/
theorem C5_witness :
    append_signup exState "s1" "alice" "core" none "zz" 99 =
      ((false, "alice is already listed for this session."), exState) :=
  C5_duplicate_rejection exState "s1" "alice" "core" none "zz" 99 (by decide) (Or.inl rfl)
    ⟨⟨"a", "s1", "Alice", "core", "", 1, "confirmed"⟩, by decide, by decide⟩

/-- Claim C9: the status-update operation with an id matching no stored row
returns normally with every record unchanged; no error is surfaced. -/
theorem C9_update_unknown_id_noop (rows : List Signup) (signup_id new_status : String)
    (h : ∀ r ∈ rows, r.id ≠ signup_id) :
    update_signup_status rows signup_id new_status = rows :=
  update_signup_status_not_found new_status h

/-- Witness for C9 at the concrete fixture. -/
theorem C9_witness : update_signup_status exRows "zzz" "confirmed" = exRows :=
  C9_update_unknown_id_noop exRows "zzz" "confirmed" (by decide)

/-- Claim C10: recompute touches only the signups of the given session — the
sessions worksheet is returned unchanged, and every signup row of another
session is returned unchanged at its position. -/
theorem C10_recompute_frame (state : AppState) (session_id : String) :
    (apply_priority_logic state session_id).sessions = state.sessions ∧
    ∀ (i : Nat) (hi : i < state.signups.length),
      state.signups[i].session_id ≠ session_id →
        (apply_priority_logic state session_id).signups[i]? = some state.signups[i] := by
  rcases hs : get_session_by_id state.sessions session_id with _ | s
  · rw [apply_priority_logic_not_found hs]
    exact ⟨rfl, fun i hi _ => List.getElem?_eq_getElem hi⟩
  · rw [apply_priority_logic_found hs]
    refine ⟨rfl, fun i hi hne => ?_⟩
    show (state.signups.map _)[i]? = _
    rw [List.getElem?_map, List.getElem?_eq_getElem hi]
    show some (set_status_row _ _ state.signups[i]) = _
    rw [set_status_row_of_not_active fun hc => hne hc.1]

/-- Witness for C10 at the concrete fixture: the session-"s2" row at index 4
is untouched by a recompute of session "s1". -/
theorem C10_witness :
    (apply_priority_logic exState "s1").sessions = exState.sessions ∧
    (apply_priority_logic exState "s1").signups[4]? =
      some (⟨"e", "s2", "Eve", "core", "", 5, "waitlist"⟩ : Signup) :=
  ⟨(C10_recompute_frame exState "s1").1,
   (C10_recompute_frame exState "s1").2 4 (by decide) (by decide)⟩

/-- Claim C2: after a recompute, the sorted active list is a permutation of
the active signups, sorted core-before-outsider then by creation time, and
the active rows end up confirmed exactly when their id is among the first
`capacity` entries of that order, every other active row being waitlisted. -/
theorem C2_recompute_partition (state : AppState) (session_id : String) (s : Session)
    (h : get_session_by_id state.sessions session_id = some s) :
    (sorted_active state.signups session_id).Perm (read_signups state.signups session_id) ∧
    List.Sorted prioRel (sorted_active state.signups session_id) ∧
    ∀ r ∈ (apply_priority_logic state session_id).signups,
      r.session_id = session_id → r.status ≠ "removed" →
        ((r.status = "confirmed" ↔
            r.id ∈ confirm_ids state.signups session_id s.capacity) ∧
          (r.id ∉ confirm_ids state.signups session_id s.capacity →
            r.status = "waitlist")) := by
  refine ⟨List.perm_insertionSort _ _, List.sorted_insertionSort _ _, ?_⟩
  rw [apply_priority_logic_found h]
  intro r hr hsid hrem
  obtain ⟨a, ha, rfl⟩ := List.mem_map.mp hr
  by_cases hact : a.session_id = session_id ∧ a.status ≠ "removed"
  · rw [set_status_row_of_active hact]
    by_cases hm : a.id ∈ confirm_ids state.signups session_id s.capacity <;> simp [hm]
  · rw [set_status_row_of_not_active hact] at hsid hrem
    exact absurd ⟨hsid, hrem⟩ hact

/-- Witness for C2 at the concrete fixture. -/
theorem C2_witness :
    (sorted_active exState.signups "s1").Perm (read_signups exState.signups "s1") :=
  (C2_recompute_partition exState "s1" exS (by decide)).1

/-- Claim C7: recompute is idempotent — running it twice in a row with no
intervening mutation produces exactly the state of running it once. -/
theorem C7_recompute_idempotent (state : AppState) (session_id : String) :
    apply_priority_logic (apply_priority_logic state session_id) session_id =
      apply_priority_logic state session_id := by
  rcases hs : get_session_by_id state.sessions session_id with _ | s
  · rw [apply_priority_logic_not_found hs, apply_priority_logic_not_found hs]
  · have h1 := apply_priority_logic_found hs
    have hs2 : get_session_by_id (apply_priority_logic state session_id).sessions session_id =
        some s := by
      rw [h1]
      exact hs
    rw [apply_priority_logic_found hs2, h1]
    rw [confirm_ids_map_set_status]
    congr 1
    rw [List.map_map]
    exact List.map_congr_left fun a _ => set_status_row_idem _ _ a

/-- Claim C3: with unique signup ids, a recompute leaves at most `capacity`
confirmed signups in the session, and a promotion pass preserves the bound
whenever it held before the call. -/
theorem C3_capacity_invariant (state : AppState) (session_id : String) (s : Session)
    (force : Bool) (now : Nat)
    (hnd : (state.signups.map (fun r => r.id)).Nodup)
    (h : get_session_by_id state.sessions session_id = some s) :
    count_confirmed (apply_priority_logic state session_id).signups session_id ≤ s.capacity ∧
    (count_confirmed state.signups session_id ≤ s.capacity →
      count_confirmed (auto_fill_from_waitlist state session_id force now).2.signups
        session_id ≤ s.capacity) := by
  constructor
  · rw [apply_priority_logic_found h]
    show count_confirmed (state.signups.map (set_status_row session_id
        (confirm_ids state.signups session_id s.capacity))) session_id ≤ s.capacity
    unfold count_confirmed
    rw [read_signups_map _ _ _ (fun r _ => set_status_row_active_iff session_id _ r),
      List.filter_map, List.length_map]
    have hcong : ∀ a ∈ read_signups state.signups session_id,
        ((fun r => decide (r.status = "confirmed")) ∘
            set_status_row session_id (confirm_ids state.signups session_id s.capacity)) a =
          (fun r => decide (r.id ∈ confirm_ids state.signups session_id s.capacity)) a := by
      intro a ha
      have hact := mem_read_signups_iff.mp ha
      simp only [Function.comp]
      rw [set_status_row_of_active ⟨hact.2.1, hact.2.2⟩]
      by_cases hm : a.id ∈ confirm_ids state.signups session_id s.capacity <;> simp [hm]
    rw [List.filter_congr hcong]
    exact le_trans (length_filter_mem_le _ _ (read_signups_nodup_ids session_id hnd))
      (confirm_ids_length_le _ _ _)
  · intro hcap
    by_cases hg : gate_blocked s force now = true
    · rw [auto_fill_blocked h hg]
      exact hcap
    · have hgf : gate_blocked s force now = false := by
        simp at hg
        exact hg
      by_cases hr : s.capacity - count_confirmed state.signups session_id = 0
      · rw [auto_fill_full h hgf hr]
        exact hcap
      · rw [auto_fill_main h hgf hr]
        show count_confirmed (promote_all state.signups _) session_id ≤ s.capacity
        exact le_trans (count_confirmed_promote_le state.signups session_id _ hnd) (by omega)

/-- Witness for C3 at the concrete fixture. -/
theorem C3_witness :
    count_confirmed (apply_priority_logic exState "s1").signups "s1" ≤ exS.capacity ∧
    count_confirmed (auto_fill_from_waitlist exState "s1" true 100).2.signups "s1" ≤
      exS.capacity :=
  ⟨(C3_capacity_invariant exState "s1" exS true 100 (by decide) (by decide)).1,
   (C3_capacity_invariant exState "s1" exS true 100 (by decide) (by decide)).2 (by decide)⟩

/-- Claim C6: when promotion runs with free capacity, the candidate order is
a sorted (outsiders first, then cores, by creation time) permutation of the
active not-confirmed signups, the promoted count is
`min remainingCapacity candidateCount`, and exactly the rows whose id is
among the first `remainingCapacity` candidates are set to confirmed, all
others being left untouched. -/
theorem C6_promotion_order (state : AppState) (session_id : String) (s : Session)
    (force : Bool) (now : Nat)
    (hnd : (state.signups.map (fun r => r.id)).Nodup)
    (h : get_session_by_id state.sessions session_id = some s)
    (hg : gate_blocked s force now = false)
    (hr : s.capacity - count_confirmed state.signups session_id ≠ 0) :
    (promo_candidates state.signups session_id).Perm
      ((read_signups state.signups session_id).filter
        (fun r => decide (r.status ≠ "confirmed"))) ∧
    List.Sorted promoRel (promo_candidates state.signups session_id) ∧
    (auto_fill_from_waitlist state session_id force now).1.1 =
      min (s.capacity - count_confirmed state.signups session_id)
        (waitlist_count state.signups session_id) ∧
    (auto_fill_from_waitlist state session_id force now).2.signups =
      state.signups.map (promoted_row
        (((promo_candidates state.signups session_id).take
            (s.capacity - count_confirmed state.signups session_id)).map
          (fun c => c.id))) := by
  refine ⟨List.perm_insertionSort _ _, List.sorted_insertionSort _ _, ?_, ?_⟩
  · rw [auto_fill_main h hg hr]
    show ((promo_candidates state.signups session_id).take _).length = _
    rw [List.length_take, promo_candidates_length]
  · rw [auto_fill_main h hg hr]
    exact promote_all_eq_map _ hnd

/-- Witness for C6 at the concrete fixture: one slot free, three candidates,
one promotion. -/
theorem C6_witness :
    (auto_fill_from_waitlist exState "s1" true 100).1.1 =
      min (exS.capacity - count_confirmed exState.signups "s1")
        (waitlist_count exState.signups "s1") :=
  (C6_promotion_order exState "s1" exS true 100 (by decide) (by decide) (by decide)
    (by decide)).2.2.1

/-- Claim C8: a removed signup is invisible to `read_signups`, is never a
promotion candidate, and both recompute and promotion leave its row exactly
as it is. -/
theorem C8_removed_terminal (state : AppState) (session_id : String) (force : Bool) (now : Nat)
    (i : Nat)
    (hnd : (state.signups.map (fun r => r.id)).Nodup)
    (hi : i < state.signups.length)
    (hrem : state.signups[i].status = "removed") :
    state.signups[i] ∉ read_signups state.signups session_id ∧
    state.signups[i] ∉ promo_candidates state.signups session_id ∧
    (apply_priority_logic state session_id).signups[i]? = some state.signups[i] ∧
    (auto_fill_from_waitlist state session_id force now).2.signups[i]? =
      some state.signups[i] := by
  refine ⟨fun hmem => (mem_read_signups_iff.mp hmem).2.2 hrem,
    fun hmem => (mem_promo_candidates hmem).2.2.1 hrem, ?_, ?_⟩
  · rcases hs : get_session_by_id state.sessions session_id with _ | s
    · rw [apply_priority_logic_not_found hs]
      exact List.getElem?_eq_getElem hi
    · rw [apply_priority_logic_found hs]
      show (state.signups.map _)[i]? = _
      rw [List.getElem?_map, List.getElem?_eq_getElem hi]
      show some (set_status_row _ _ state.signups[i]) = _
      rw [set_status_row_of_not_active fun hc => hc.2 hrem]
  · rcases hs : get_session_by_id state.sessions session_id with _ | s
    · rw [auto_fill_not_found hs]
      exact List.getElem?_eq_getElem hi
    · by_cases hg : gate_blocked s force now = true
      · rw [auto_fill_blocked hs hg]
        exact List.getElem?_eq_getElem hi
      · have hgf : gate_blocked s force now = false := by
          simp at hg
          exact hg
        by_cases hr : s.capacity - count_confirmed state.signups session_id = 0
        · rw [auto_fill_full hs hgf hr]
          exact List.getElem?_eq_getElem hi
        · rw [auto_fill_main hs hgf hr]
          show (promote_all state.signups _)[i]? = _
          rw [promote_all_eq_map _ hnd, List.getElem?_map, List.getElem?_eq_getElem hi]
          show some (promoted_row _ state.signups[i]) = _
          unfold promoted_row
          rw [if_neg fun hid =>
            (promoted_mem_resolve hnd (List.getElem_mem hi) hid).2.1 hrem]

/-- Witness for C8 at the concrete fixture: the removed row "Fred" at
index 5 is untouched by recompute and by a forced promotion pass. -/
theorem C8_witness :
    (⟨"f", "s1", "Fred", "outsider", "Alice", 0, "removed"⟩ : Signup) ∉
      read_signups exState.signups "s1" ∧
    (apply_priority_logic exState "s1").signups[5]? =
      some (⟨"f", "s1", "Fred", "outsider", "Alice", 0, "removed"⟩ : Signup) ∧
    (auto_fill_from_waitlist exState "s1" true 100).2.signups[5]? =
      some (⟨"f", "s1", "Fred", "outsider", "Alice", 0, "removed"⟩ : Signup) := by
  have h8 := C8_removed_terminal exState "s1" true 100 5 (by decide) (by decide) (by decide)
  exact ⟨h8.1, h8.2.2.1, h8.2.2.2⟩

end Badminton
